import Mathlib

/-!
Verification of the image-colorization pipeline of `src/project/app.py`
(function `colorizer`, lines 75-108), against the repository's design
specification.

Embedding conventions:
* A numpy 2-dimensional array is a `Mat2`, a 3-dimensional array an `Arr3`
  (height, width, channels, plus a total pixel function).  8-bit entries are
  `Nat` (bounds stated where they matter), float entries are `ℚ` (float32
  arithmetic modelled by exact rationals in the structural pipeline section,
  and by `ℝ` in the colorspace-mathematics section below).
* A Python call that can raise becomes `Except PErr`: `cv2.cvtColor` /
  `cv2.resize` assertions surface as `PErr.invalidImage` (the spec's
  `InvalidImageError`), an absent or failing dnn net as
  `PErr.predictorUnavailable` (the spec's `PredictorUnavailableError`).
  `colorizer`'s `try/except` re-raises (`raise`, line 108), so errors
  propagate unchanged.
* `cv2.cvtColor BGR2GRAY` follows OpenCV's fixed-point kernel
  `Y = (R*4899 + G*9617 + B*1868 + 2^13) >> 14`; OpenCV accepts 3- or
  4-channel sources (BGRA alpha ignored) and rejects empty inputs and any
  other channel count.  `GRAY2RGB` requires a nonempty single-channel source.
* The numeric kernels of `cv2.cvtColor RGB2LAB / LAB2RGB` live in OpenCV,
  outside this repository; the structural pipeline is therefore parameterized
  by the per-pixel maps `rgb2lab` / `lab2rgb` (every structural theorem below
  holds for the actual kernels since it holds for all of them).  Their
  mathematical content — the spec's ColorspaceCodec — is modelled from the
  spec in the real-valued section at the end of this file.
* `cv2.resize` with the default `INTER_LINEAR` is bilinear interpolation on
  clamped (replicate-border) source coordinates; it rejects an empty source
  or an empty destination size.
-/

namespace AIColorizer

/-- A 2-dimensional array of pixels (numpy shape `(h, w)`), as a total pixel
function together with its dimensions. -/
structure Mat2 (α : Type) where
  h : Nat
  w : Nat
  px : Nat → Nat → α

/-- A 3-dimensional array (numpy shape `(h, w, c)`). -/
structure Arr3 (α : Type) where
  h : Nat
  w : Nat
  c : Nat
  px : Nat → Nat → Nat → α

/-- A float triple: one pixel of a 3-channel float image. -/
abbrev QVec3 := ℚ × ℚ × ℚ

/-- Input to `colorizer` (line 75): a decoded numpy image, either a
2-dimensional (grayscale) or a 3-dimensional (channelled) uint8 array. -/
inductive Img where
  | d2 (m : Mat2 Nat)
  | d3 (h w c : Nat) (px : Nat → Nat → Nat → Nat)

/-- Height of the input image. -/
def Img.height : Img → Nat
  | .d2 m => m.h
  | .d3 h _ _ _ => h

/-- Width of the input image. -/
def Img.width : Img → Nat
  | .d2 m => m.w
  | .d3 _ w _ _ => w

/-- Errors of the pipeline, in the spec's taxonomy (section 7). -/
inductive PErr where
  | invalidImage
  | predictorUnavailable
deriving DecidableEq

/-- Pointwise map over a 2-dimensional array; `cv2.cvtColor` on float
3-channel images is such a map. -/
def mapMat {α β : Type} (f : α → β) (m : Mat2 α) : Mat2 β :=
  ⟨m.h, m.w, fun i j => f (m.px i j)⟩

/-- Lines 79-80: `if len(img.shape) == 3: img = cv2.cvtColor(img,
cv2.COLOR_BGR2GRAY)`.  A 2-dimensional array passes through untouched; a
3-dimensional array goes through OpenCV's BGR-to-gray kernel, which asserts a
nonempty source with 3 or 4 channels (channel 0 = B, 1 = G, 2 = R) and
computes the fixed-point luma `(4899 R + 9617 G + 1868 B + 8192) / 16384`. -/
def toGray (img : Img) : Except PErr (Mat2 Nat) :=
  match img with
  | .d2 m => .ok m
  | .d3 h w c px =>
      if h = 0 ∨ w = 0 then .error .invalidImage
      else if c = 3 ∨ c = 4 then
        .ok ⟨h, w, fun i j =>
          (4899 * px i j 2 + 9617 * px i j 1 + 1868 * px i j 0 + 8192) / 16384⟩
      else .error .invalidImage

/-- Line 83: `img = cv2.cvtColor(img, cv2.COLOR_GRAY2RGB)` — replicate the
single channel three times; OpenCV asserts a nonempty source. -/
def gray2rgb (m : Mat2 Nat) : Except PErr (Mat2 (Nat × Nat × Nat)) :=
  if m.h = 0 ∨ m.w = 0 then .error .invalidImage
  else .ok ⟨m.h, m.w, fun i j => (m.px i j, m.px i j, m.px i j)⟩

/-- Line 86: `scaled = img.astype("float32") / 255.0`. -/
def normalize (m : Mat2 (Nat × Nat × Nat)) : Mat2 QVec3 :=
  ⟨m.h, m.w, fun i j =>
    (((m.px i j).1 : ℚ) / 255, ((m.px i j).2.1 : ℚ) / 255, ((m.px i j).2.2 : ℚ) / 255)⟩

/-- Clamp an integer sample coordinate into `[0, n-1]` (replicate border). -/
def clampIdx (k : ℤ) (n : Nat) : Nat :=
  (min (max k 0) ((n : ℤ) - 1)).toNat

/-- One destination pixel of OpenCV bilinear (`INTER_LINEAR`) resizing of an
`sh × sw` single-channel float image to `dh × dw`: the source coordinate of
destination pixel `(i, j)` is `((i + 1/2)·sh/dh - 1/2, (j + 1/2)·sw/dw - 1/2)`
and the four neighbouring samples (coordinates clamped at the border) are
blended by the fractional parts. -/
def bilinearPx (sh sw : Nat) (f : Nat → Nat → ℚ) (dh dw : Nat) (i j : Nat) : ℚ :=
  let fy : ℚ := ((i : ℚ) + 1/2) * ((sh : ℚ) / (dh : ℚ)) - 1/2
  let fx : ℚ := ((j : ℚ) + 1/2) * ((sw : ℚ) / (dw : ℚ)) - 1/2
  let y0 : ℤ := ⌊fy⌋
  let x0 : ℤ := ⌊fx⌋
  let dy : ℚ := fy - (y0 : ℚ)
  let dx : ℚ := fx - (x0 : ℚ)
  (1 - dy) * ((1 - dx) * f (clampIdx y0 sh) (clampIdx x0 sw)
              + dx * f (clampIdx y0 sh) (clampIdx (x0 + 1) sw))
  + dy * ((1 - dx) * f (clampIdx (y0 + 1) sh) (clampIdx x0 sw)
          + dx * f (clampIdx (y0 + 1) sh) (clampIdx (x0 + 1) sw))

/-- Lines 88 and 95: `cv2.resize(·, (dw, dh))` on a 3-channel float image —
channelwise bilinear interpolation; OpenCV asserts both the source and the
destination size nonempty. -/
def resize3 (m : Mat2 QVec3) (dw dh : Nat) : Except PErr (Mat2 QVec3) :=
  if m.h = 0 ∨ m.w = 0 ∨ dh = 0 ∨ dw = 0 then .error .invalidImage
  else .ok ⟨dh, dw, fun i j =>
    (bilinearPx m.h m.w (fun a b => (m.px a b).1) dh dw i j,
     bilinearPx m.h m.w (fun a b => (m.px a b).2.1) dh dw i j,
     bilinearPx m.h m.w (fun a b => (m.px a b).2.2) dh dw i j)⟩

/-- Line 95 for the 2-channel prediction: channelwise bilinear resize of an
`ab` pair image. -/
def resize2 (m : Mat2 (ℚ × ℚ)) (dw dh : Nat) : Except PErr (Mat2 (ℚ × ℚ)) :=
  if m.h = 0 ∨ m.w = 0 ∨ dh = 0 ∨ dw = 0 then .error .invalidImage
  else .ok ⟨dh, dw, fun i j =>
    (bilinearPx m.h m.w (fun a b => (m.px a b).1) dh dw i j,
     bilinearPx m.h m.w (fun a b => (m.px a b).2) dh dw i j)⟩

/-- Lines 88-90: resize the full LAB image to 224 × 224, take channel 0
(`cv2.split` copies, so the in-place `L -= 50` of line 90 mutates only this
copy), subtract 50. -/
def tensorPrep (lab : Mat2 QVec3) : Except PErr (Mat2 ℚ) :=
  match resize3 lab 224 224 with
  | .error e => .error e
  | .ok r => .ok ⟨r.h, r.w, fun i j => (r.px i j).1 - 50⟩

/-- The loaded dnn model as the pipeline sees it: lightness tensor in,
optionally a (transposed, lines 93-94) two-channel `ab` image out; `none`
models `net.forward` raising. -/
abbrev Net := Mat2 ℚ → Option (Mat2 (ℚ × ℚ))

/-- Lines 93-94: `net.setInput(...); ab = net.forward()[0].transpose(...)`.
`net = None` (model never loaded, line 57) raises, as does a failing
forward pass; both surface as the spec's `PredictorUnavailableError`. -/
def runNet (net : Option Net) (t : Mat2 ℚ) : Except PErr (Mat2 (ℚ × ℚ)) :=
  match net with
  | none => .error .predictorUnavailable
  | some f =>
      match f t with
      | none => .error .predictorUnavailable
      | some ab => .ok ab

/-- Lines 98-99: `L = cv2.split(lab)[0]` at FULL resolution, then
`np.concatenate((L[:,:,None], ab), axis=2)` — channel 0 of the merged LAB
image is channel 0 of the original full-resolution `lab`, channels 1-2 are
the resized prediction. -/
def mergeInput (lab : Mat2 QVec3) (ab : Mat2 (ℚ × ℚ)) : Mat2 QVec3 :=
  ⟨lab.h, lab.w, fun i j => ((lab.px i j).1, (ab.px i j).1, (ab.px i j).2)⟩

/-- Lines 101-102: `np.clip(colorized, 0, 1)` then `(255 * ...).astype("uint8")`.
numpy's cast to uint8 is a C cast: truncation toward zero, here a floor since
the clipped value is nonnegative. -/
def quantize (q : ℚ) : Nat :=
  (⌊255 * max 0 (min 1 q)⌋).toNat

/-- Lines 100-102: `cv2.cvtColor(colorized, cv2.COLOR_LAB2RGB)` applied
pointwise, then clip / scale / cast (`quantize`) per channel; the concatenate
of line 99 fixed the channel count at 3. -/
def outOf (lab2rgb : QVec3 → QVec3) (lab : Mat2 QVec3) (ab : Mat2 (ℚ × ℚ)) :
    Arr3 Nat :=
  let rgbOut := mapMat lab2rgb (mergeInput lab ab)
  ⟨rgbOut.h, rgbOut.w, 3, fun i j k =>
    if k = 0 then quantize (rgbOut.px i j).1
    else if k = 1 then quantize (rgbOut.px i j).2.1
    else if k = 2 then quantize (rgbOut.px i j).2.2
    else 0⟩

/-- The `colorizer` function of `src/project/app.py`, lines 75-108, with the
per-pixel kernels of `cv2.cvtColor RGB2LAB` / `LAB2RGB` passed in as
`rgb2lab` / `lab2rgb` and the dnn model as `net`.  Each `match` mirrors one
statement that can raise; the final value mirrors lines 99-104. -/
def colorizer (rgb2lab lab2rgb : QVec3 → QVec3) (net : Option Net) (img : Img) :
    Except PErr (Arr3 Nat) :=
  match toGray img with
  | .error e => .error e
  | .ok gray =>
    match gray2rgb gray with
    | .error e => .error e
    | .ok rgb8 =>
      let lab := mapMat rgb2lab (normalize rgb8)
      match tensorPrep lab with
      | .error e => .error e
      | .ok t =>
        match runNet net t with
        | .error e => .error e
        | .ok ab0 =>
          match resize2 ab0 rgb8.w rgb8.h with
          | .error e => .error e
          | .ok ab => .ok (outOf lab2rgb lab ab)

/-- The LAB image (line 87) computed from a grayscale `m`: replicate to three
channels, scale to `[0,1]`, convert pixelwise. -/
def labOf (rgb2lab : QVec3 → QVec3) (m : Mat2 Nat) : Mat2 QVec3 :=
  mapMat rgb2lab (normalize ⟨m.h, m.w, fun i j => (m.px i j, m.px i j, m.px i j)⟩)

/-- The prepared lightness tensor (lines 88-90) of a LAB image: channel 0 of
the 224 × 224 bilinear resize, shifted by −50. -/
def prepOf (lab : Mat2 QVec3) : Mat2 ℚ :=
  ⟨224, 224, fun i j =>
    bilinearPx lab.h lab.w (fun a b => (lab.px a b).1) 224 224 i j - 50⟩

/-- An input the pipeline's conversions accept: nonempty, and (for a
3-dimensional array) 3 or 4 channels. -/
def okShape : Img → Bool
  | .d2 m => m.h != 0 && m.w != 0
  | .d3 h w c _ => h != 0 && w != 0 && (c == 3 || c == 4)

/-- An input of the spec's Image data model with the 1-channel case in its
2-dimensional representation: shape `(H, W)` or `(H, W, 3)`, nonempty. -/
def okShape13 : Img → Bool
  | .d2 m => m.h != 0 && m.w != 0
  | .d3 h w c _ => h != 0 && w != 0 && c == 3

/-- A 1 × 1 grayscale test image. -/
def demoGray : Mat2 Nat := ⟨1, 1, fun _ _ => 128⟩

/-- A stub predictor returning an all-zero 2 × 2 chrominance image. -/
def predStub : Net := fun _ => some ⟨2, 2, fun _ _ => (0, 0)⟩

/-- The quantization step never leaves the 8-bit range. -/
lemma quantize_le (q : ℚ) : quantize q ≤ 255 := by
  have h1 : max 0 (min 1 q) ≤ 1 := max_le (by norm_num) (min_le_left _ _)
  have h2 : (255 : ℚ) * max 0 (min 1 q) ≤ 255 := by nlinarith
  have h3 : ⌊(255 : ℚ) * max 0 (min 1 q)⌋ ≤ 255 := by
    have hm := Int.floor_mono h2
    have h255 : ⌊(255 : ℚ)⌋ = 255 := by norm_num
    omega
  exact Int.toNat_le.mpr h3

/-- On a nonempty LAB image, lines 88-90 succeed and produce `prepOf`. -/
lemma tensorPrep_ok (lab : Mat2 QVec3) (hh : lab.h ≠ 0) (hw : lab.w ≠ 0) :
    tensorPrep lab = .ok (prepOf lab) := by
  obtain ⟨h, w, px⟩ := lab
  simp only [tensorPrep, resize3, prepOf]
  rw [if_neg (by simp_all)]

/-- On a nonempty 2-dimensional input, the pipeline runs straight to the
prediction step: everything before and after it is determined by the image
and the conversion kernels. -/
lemma colorizer_d2 (p q : QVec3 → QVec3) (net : Option Net) (m : Mat2 Nat)
    (hh : m.h ≠ 0) (hw : m.w ≠ 0) :
    colorizer p q net (.d2 m) =
      match runNet net (prepOf (labOf p m)) with
      | .error e => .error e
      | .ok ab0 =>
        match resize2 ab0 m.w m.h with
        | .error e => .error e
        | .ok ab => .ok (outOf q (labOf p m) ab) := by
  obtain ⟨h, w, px⟩ := m
  simp only [colorizer, toGray, gray2rgb, labOf]
  rw [if_neg (by simp_all)]
  dsimp only
  rw [tensorPrep_ok _ hh hw]

/-- A nonempty 3- or 4-channel input is reduced to its gray image and then
follows the 2-dimensional path. -/
lemma colorizer_d3 (p q : QVec3 → QVec3) (net : Option Net) (h w c : Nat)
    (px : Nat → Nat → Nat → Nat) (hh : h ≠ 0) (hw : w ≠ 0) (hc : c = 3 ∨ c = 4) :
    colorizer p q net (.d3 h w c px) =
      colorizer p q net (.d2 ⟨h, w, fun i j =>
        (4899 * px i j 2 + 9617 * px i j 1 + 1868 * px i j 0 + 8192) / 16384⟩) := by
  simp only [colorizer, toGray]
  rw [if_neg (by simp_all), if_pos hc]

/-- C4: colorizing a single-channel image `g` and colorizing its 3-channel
broadcast `[g,g,g]` yield identical outputs: the BGR-to-gray fixed-point
reduction recovers `g` exactly (the luma weights sum to 2^14) and both inputs
then follow the same path. -/
theorem colorizer_gray_equiv (p q : QVec3 → QVec3) (net : Option Net) (g : Mat2 Nat)
    (hh : g.h ≠ 0) (hw : g.w ≠ 0) :
    colorizer p q net (.d3 g.h g.w 3 (fun i j _ => g.px i j)) =
      colorizer p q net (.d2 g) := by
  rw [colorizer_d3 p q net g.h g.w 3 _ hh hw (Or.inl rfl)]
  obtain ⟨h, w, px⟩ := g
  have hpx : (fun i j => (4899 * px i j + 9617 * px i j + 1868 * px i j + 8192) / 16384)
      = px := by
    funext i j
    omega
  simp only [hpx]

/-- C4 witness: the equivalence at a concrete 1 × 1 image. -/
theorem colorizer_gray_equiv_witness :
    colorizer (fun v => v) (fun v => v) none (.d3 1 1 3 (fun i j _ => demoGray.px i j)) =
      colorizer (fun v => v) (fun v => v) none (.d2 demoGray) :=
  colorizer_gray_equiv (fun v => v) (fun v => v) none demoGray (by decide) (by decide)

/-- C5: the colorize operation is deterministic — two calls on the same input
image with the same predictor state yield the same result.  The embedding is
a pure function of exactly the input image, the conversion kernels and the
net, mirroring the code, which draws on no other state and no randomness. -/
theorem colorizer_deterministic (p q : QVec3 → QVec3) (net : Option Net) (img : Img)
    (r1 r2 : Except PErr (Arr3 Nat))
    (h1 : colorizer p q net img = r1) (h2 : colorizer p q net img = r2) :
    r1 = r2 := by
  rw [← h1, ← h2]

/-- C5 witness: determinism instantiated on a concrete run. -/
theorem colorizer_deterministic_witness :
    (Except.error PErr.predictorUnavailable : Except PErr (Arr3 Nat)) =
      Except.error PErr.predictorUnavailable :=
  colorizer_deterministic (fun v => v) (fun v => v) none (.d2 demoGray) _ _ rfl rfl

/-- C8: channel 0 of the LAB image handed to the final LAB-to-RGB conversion
is channel 0 of the original full-resolution LAB image — it carries neither
the −50 shift nor the 224 × 224 resize applied to the prediction input (the
`cv2.split` of line 89 copies, so the in-place shift of line 90 cannot reach
`lab`), and the merge keeps the full resolution. -/
theorem merge_uses_original_L (lab : Mat2 QVec3) (ab : Mat2 (ℚ × ℚ)) (i j : Nat) :
    ((mergeInput lab ab).px i j).1 = (lab.px i j).1 ∧
    (mergeInput lab ab).h = lab.h ∧ (mergeInput lab ab).w = lab.w :=
  ⟨rfl, rfl, rfl⟩

/-- C9 counterexample: quantization is NOT round-to-nearest.  At the clamped
value `638/1275` (where `255·v = 127.6`) the code produces 127, not the 128
the claim predicts. -/
theorem quantize_not_nearest :
    quantize (638 / 1275) = 127 ∧ ¬ quantize (638 / 1275) = 128 := by
  have hmin : min (1 : ℚ) (638 / 1275) = 638 / 1275 := by
    rw [min_eq_right]
    norm_num
  have hmax : max (0 : ℚ) (638 / 1275 : ℚ) = 638 / 1275 := by
    rw [max_eq_right]
    norm_num
  have hfl : ⌊(255 : ℚ) * (638 / 1275)⌋ = 127 := by
    rw [Int.floor_eq_iff]
    constructor <;> norm_num
  constructor
  · simp only [quantize, hmin, hmax, hfl]
    rfl
  · simp only [quantize, hmin, hmax, hfl]
    decide

/-- C9 corrected: the final quantization clamps to `[0,1]`, scales by 255 and
TRUNCATES toward zero (a floor, since the clamped value is nonnegative): the
result is the greatest integer not exceeding `255 · clamp(v)`, and lies in
`[0, 255]`. -/
theorem quantize_truncates (q : ℚ) :
    (quantize q : ℚ) ≤ 255 * max 0 (min 1 q) ∧
    255 * max 0 (min 1 q) - 1 < (quantize q : ℚ) ∧
    quantize q ≤ 255 := by
  have hx0 : (0 : ℚ) ≤ 255 * max 0 (min 1 q) := by positivity
  have hfl0 : 0 ≤ ⌊(255 : ℚ) * max 0 (min 1 q)⌋ := Int.floor_nonneg.mpr hx0
  have hcast : ((quantize q : ℚ)) = ((⌊(255 : ℚ) * max 0 (min 1 q)⌋ : ℤ) : ℚ) := by
    simp only [quantize]
    exact_mod_cast congrArg (fun z : ℤ => (z : ℚ)) (Int.toNat_of_nonneg hfl0)
  refine ⟨?_, ?_, quantize_le q⟩
  · rw [hcast]
    exact Int.floor_le _
  · rw [hcast]
    exact_mod_cast Int.sub_one_lt_floor (255 * max 0 (min 1 q))

/-- Inputs the first colorspace conversion rejects: zero area, or a
3-dimensional array whose channel count OpenCV's BGR-to-gray refuses. -/
def badShape : Img → Prop
  | .d2 m => m.h = 0 ∨ m.w = 0
  | .d3 h w c _ => h = 0 ∨ w = 0 ∨ (c ≠ 3 ∧ c ≠ 4)

/-- A predictor that always raises during inference. -/
def failNet : Net := fun _ => none

/-- On a nonempty 2-dimensional input with a predictor that returns a
nonempty chrominance image, `colorizer` succeeds, the output shape is the
input shape with 3 channels, and every element is at most 255. -/
lemma colorizer_d2_succeeds (p q : QVec3 → QVec3) (f : Net)
    (hf : ∀ t, ∃ ab, f t = some ab ∧ ab.h ≠ 0 ∧ ab.w ≠ 0)
    (m : Mat2 Nat) (hh : m.h ≠ 0) (hw : m.w ≠ 0) :
    ∃ out, colorizer p q (some f) (.d2 m) = .ok out ∧
      out.h = m.h ∧ out.w = m.w ∧ out.c = 3 ∧ ∀ i j k, out.px i j k ≤ 255 := by
  rw [colorizer_d2 p q _ m hh hw]
  obtain ⟨ab, hab, hah, haw⟩ := hf (prepOf (labOf p m))
  simp only [runNet, hab]
  simp only [resize2]
  rw [if_neg (by simp_all)]
  dsimp only
  refine ⟨_, rfl, rfl, rfl, rfl, ?_⟩
  intro i j k
  dsimp only [outOf, mapMat]
  split
  · exact quantize_le _
  split
  · exact quantize_le _
  split
  · exact quantize_le _
  omega

/-- C2: for every nonempty input of shape `(H, W)` (the 1-channel case) or
`(H, W, 3)`, and every available predictor returning a nonempty chrominance
image, `colorizer` succeeds with an output of shape `(H, W, 3)`: the spatial
dimensions equal the input's and the channel count is 3. -/
theorem colorizer_shape (p q : QVec3 → QVec3) (f : Net)
    (hf : ∀ t, ∃ ab, f t = some ab ∧ ab.h ≠ 0 ∧ ab.w ≠ 0)
    (img : Img) (hv : okShape13 img = true) :
    ∃ out, colorizer p q (some f) img = .ok out ∧
      out.h = img.height ∧ out.w = img.width ∧ out.c = 3 := by
  cases img with
  | d2 m =>
      simp only [okShape13, Bool.and_eq_true, bne_iff_ne, ne_eq] at hv
      obtain ⟨out, hout, h1, h2, h3, _⟩ :=
        colorizer_d2_succeeds p q f hf m hv.1 hv.2
      exact ⟨out, hout, h1, h2, h3⟩
  | d3 h w c px =>
      simp only [okShape13, Bool.and_eq_true, bne_iff_ne, ne_eq, beq_iff_eq] at hv
      obtain ⟨⟨hh, hw⟩, hc⟩ := hv
      subst hc
      rw [colorizer_d3 p q _ h w 3 px hh hw (Or.inl rfl)]
      obtain ⟨out, hout, h1, h2, h3, _⟩ :=
        colorizer_d2_succeeds p q f hf
          ⟨h, w, fun i j =>
            (4899 * px i j 2 + 9617 * px i j 1 + 1868 * px i j 0 + 8192) / 16384⟩ hh hw
      exact ⟨out, hout, h1, h2, h3⟩

/-- C2 witness: the shape invariant at a concrete 1 × 1 grayscale image and
the stub predictor. -/
theorem colorizer_shape_witness :
    ∃ out, colorizer (fun v => v) (fun v => v) (some predStub) (.d2 demoGray) = .ok out ∧
      out.h = 1 ∧ out.w = 1 ∧ out.c = 3 :=
  colorizer_shape (fun v => v) (fun v => v) predStub
    (fun t => ⟨⟨2, 2, fun _ _ => (0, 0)⟩, rfl, by decide, by decide⟩)
    (.d2 demoGray) (by decide)

/-- C3: whenever `colorizer` returns an image at all, every element of it is
an 8-bit integer: the clip to `[0,1]`, scale by 255 and cast can neither
exceed 255 nor wrap around. -/
theorem colorizer_range (p q : QVec3 → QVec3) (net : Option Net) (img : Img)
    (out : Arr3 Nat) (hok : colorizer p q net img = .ok out) :
    ∀ i j k, out.px i j k ≤ 255 := by
  simp only [colorizer] at hok
  split at hok
  · exact absurd hok (by simp)
  split at hok
  · exact absurd hok (by simp)
  split at hok
  · exact absurd hok (by simp)
  split at hok
  · exact absurd hok (by simp)
  split at hok
  · exact absurd hok (by simp)
  injection hok with hok
  subst hok
  intro i j k
  dsimp only [outOf, mapMat]
  split
  · exact quantize_le _
  split
  · exact quantize_le _
  split
  · exact quantize_le _
  omega

/-- The value a full run on the 1 × 1 demo image produces. -/
def demoOut : Arr3 Nat :=
  outOf (fun v => v) (labOf (fun v => v) demoGray)
    ⟨1, 1, fun i j => (bilinearPx 2 2 (fun _ _ => 0) 1 1 i j,
                       bilinearPx 2 2 (fun _ _ => 0) 1 1 i j)⟩

/-- C3 witness: the range invariant on a concrete successful run. -/
theorem colorizer_range_witness : demoOut.px 0 0 0 ≤ 255 :=
  colorizer_range (fun v => v) (fun v => v) (some predStub) (.d2 demoGray)
    demoOut rfl 0 0 0

/-- C7: if the predictor is unavailable (`net = None`, model never loaded)
or raises during inference, `colorizer` raises the predictor error — surfaced
as-is, no retry — and produces no output image. -/
theorem colorizer_predictor_failure (p q : QVec3 → QVec3) (img : Img)
    (hv : okShape img = true) :
    colorizer p q none img = .error .predictorUnavailable ∧
    ∀ f : Net, (∀ t, f t = none) →
      colorizer p q (some f) img = .error .predictorUnavailable := by
  have key : ∀ (m : Mat2 Nat), m.h ≠ 0 → m.w ≠ 0 →
      colorizer p q none (.d2 m) = .error .predictorUnavailable ∧
      ∀ f : Net, (∀ t, f t = none) →
        colorizer p q (some f) (.d2 m) = .error .predictorUnavailable := by
    intro m hh hw
    constructor
    · rw [colorizer_d2 p q none m hh hw]
      rfl
    · intro f hfail
      rw [colorizer_d2 p q _ m hh hw]
      simp only [runNet, hfail]
  cases img with
  | d2 m =>
      simp only [okShape, Bool.and_eq_true, bne_iff_ne, ne_eq] at hv
      exact key m hv.1 hv.2
  | d3 h w c px =>
      simp only [okShape, Bool.and_eq_true, bne_iff_ne, ne_eq, Bool.or_eq_true,
        beq_iff_eq] at hv
      obtain ⟨⟨hh, hw⟩, hc⟩ := hv
      rw [colorizer_d3 p q none h w c px hh hw hc]
      constructor
      · exact (key _ hh hw).1
      · intro f hfail
        rw [colorizer_d3 p q _ h w c px hh hw hc]
        exact (key _ hh hw).2 f hfail

/-- C7 witness: a predictor that raises on the demo image. -/
theorem colorizer_predictor_failure_witness :
    colorizer (fun v => v) (fun v => v) (some failNet) (.d2 demoGray) =
      .error .predictorUnavailable :=
  (colorizer_predictor_failure (fun v => v) (fun v => v) (.d2 demoGray)
    (by decide)).2 failNet (fun t => rfl)

/-- C6 counterexample: a 1 × 1 image with FOUR channels — a channel count
outside {1, 3} — is not rejected: OpenCV's BGR-to-gray accepts a 4-channel
(BGRA) source, so `colorizer` succeeds on it instead of raising. -/
theorem four_channel_accepted :
    (colorizer (fun v => v) (fun v => v) (some predStub)
      (.d3 1 1 4 (fun _ _ _ => 0))).isOk = true := rfl

/-- C6 corrected: a zero-area input, or a 3-dimensional input whose channel
count is neither 3 nor 4, raises `InvalidImageError` in the first colorspace
conversion, for every predictor state — so the input never reaches the
tensor preparation or the predictor and no partial progress is made.
(A 4-channel input, by contrast, is accepted and colorized as BGRA.) -/
theorem degenerate_rejected (p q : QVec3 → QVec3) (net : Option Net) (img : Img)
    (hbad : badShape img) :
    colorizer p q net img = .error .invalidImage := by
  cases img with
  | d2 m =>
      have hbad2 : m.h = 0 ∨ m.w = 0 := hbad
      simp only [colorizer, toGray, gray2rgb]
      rw [if_pos hbad2]
  | d3 h w c px =>
      rcases hbad with h0 | h0 | hc
      · simp only [colorizer, toGray]
        rw [if_pos (Or.inl h0)]
      · simp only [colorizer, toGray]
        rw [if_pos (Or.inr h0)]
      · by_cases hhw : h = 0 ∨ w = 0
        · simp only [colorizer, toGray]
          rw [if_pos hhw]
        · simp only [colorizer, toGray]
          rw [if_neg hhw, if_neg (by tauto)]

/-- C6 witness for the corrected claim: a 0 × 5 image is rejected even with a
working predictor in place. -/
theorem degenerate_rejected_witness :
    colorizer (fun v => v) (fun v => v) (some predStub) (.d2 ⟨0, 5, fun _ _ => 0⟩) =
      .error .invalidImage :=
  degenerate_rejected (fun v => v) (fun v => v) (some predStub)
    (.d2 ⟨0, 5, fun _ _ => 0⟩) (Or.inl rfl)

/-- C10: the gray-versus-color branch looks only at the number of array
dimensions.  A single-channel image stored as a 3-dimensional `(H, W, 1)`
array is routed into the BGR-to-gray conversion meant for 3-channel input,
which rejects its channel count, so `colorizer` fails on it for every
predictor state; a 2-dimensional array passes the branch untouched. -/
theorem branch_on_ndim (p q : QVec3 → QVec3) (net : Option Net) (h w : Nat)
    (px : Nat → Nat → Nat → Nat) (m : Mat2 Nat) (hh : h ≠ 0) (hw : w ≠ 0) :
    colorizer p q net (.d3 h w 1 px) = .error .invalidImage ∧
    toGray (.d3 h w 1 px) = .error .invalidImage ∧
    toGray (.d2 m) = .ok m := by
  have htg : toGray (.d3 h w 1 px) = .error .invalidImage := by
    simp only [toGray]
    rw [if_neg (by simp_all), if_neg (by decide)]
  refine ⟨?_, htg, rfl⟩
  simp only [colorizer]
  rw [htg]

/-- C10 witness: the `(H, W, 1)` rejection at a concrete 1 × 1 × 1 array. -/
theorem branch_on_ndim_witness :
    colorizer (fun v => v) (fun v => v) (some predStub) (.d3 1 1 1 (fun _ _ _ => 7)) =
      .error .invalidImage ∧
    toGray (.d3 1 1 1 (fun _ _ _ => 7)) = .error .invalidImage ∧
    toGray (.d2 demoGray) = .ok demoGray :=
  branch_on_ndim (fun v => v) (fun v => v) (some predStub) 1 1
    (fun _ _ _ => 7) demoGray (by decide) (by decide)

/-!
ColorspaceCodec (spec section 4.1).  The numeric kernels realizing
`rgbToLab` / `labToRgb` live in `cv2.cvtColor`, outside this repository, so
they are modelled from the spec: gamma-correct sRGB-to-linear, linear-to-XYZ
via the standard primaries matrix, XYZ-to-LAB via the CIE formulas with D65
white point, with `labToRgb` the algebraic inverse the spec demands.  float32
arithmetic is modelled by exact real arithmetic; the inverse matrix is the
exact rational inverse of the forward primaries matrix, and the encode-side
gamma threshold is the exact image of the decode threshold 0.04045, which is
what makes the spec's inverse exact.  The round-trip is then exact, hence
within the claimed 1e-3 tolerance.
-/

/-- A pixel of a real-valued 3-channel image. -/
abbrev RVec3 := ℝ × ℝ × ℝ

noncomputable section

/-- Modelled from the spec: sRGB gamma decode (sRGB-to-linear), the standard
piecewise curve with linear segment below 0.04045. -/
def srgbToLinear (c : ℝ) : ℝ :=
  if c ≤ 0.04045 then c / 12.92 else ((c + 0.055) / 1.055) ^ (2.4 : ℝ)

/-- Modelled from the spec: sRGB gamma encode (linear-to-sRGB), the inverse
curve; its branch threshold is the exact image `0.04045 / 12.92` of the
decode threshold, making the pair exact inverses. -/
def linearToSrgb (l : ℝ) : ℝ :=
  if l ≤ 0.04045 / 12.92 then 12.92 * l else 1.055 * l ^ ((1 : ℝ) / 2.4) - 0.055

/-- Entry (1,1) of the adjugate of the (10000-scaled) sRGB primaries matrix. -/
def inv11 : ℝ := 7152 * 9505 - 722 * 1192

/-- Entry (1,2) of the adjugate. -/
def inv12 : ℝ := -(3576 * 9505 - 1805 * 1192)

/-- Entry (1,3) of the adjugate. -/
def inv13 : ℝ := 3576 * 722 - 1805 * 7152

/-- Entry (2,1) of the adjugate. -/
def inv21 : ℝ := -(2126 * 9505 - 722 * 193)

/-- Entry (2,2) of the adjugate. -/
def inv22 : ℝ := 4124 * 9505 - 1805 * 193

/-- Entry (2,3) of the adjugate. -/
def inv23 : ℝ := -(4124 * 722 - 1805 * 2126)

/-- Entry (3,1) of the adjugate. -/
def inv31 : ℝ := 2126 * 1192 - 7152 * 193

/-- Entry (3,2) of the adjugate. -/
def inv32 : ℝ := -(4124 * 1192 - 3576 * 193)

/-- Entry (3,3) of the adjugate. -/
def inv33 : ℝ := 4124 * 7152 - 3576 * 2126

/-- Determinant of the 10000-scaled primaries matrix (first-row cofactor
expansion). -/
def detA : ℝ := 4124 * inv11 + 3576 * inv21 + 1805 * inv31

/-- Modelled from the spec: X of linear RGB via the standard sRGB/D65
primaries matrix (row 1). -/
def xyzX (r g b : ℝ) : ℝ := (4124 * r + 3576 * g + 1805 * b) / 10000

/-- Row 2 of the primaries matrix: Y (luminance). -/
def xyzY (r g b : ℝ) : ℝ := (2126 * r + 7152 * g + 722 * b) / 10000

/-- Row 3 of the primaries matrix: Z. -/
def xyzZ (r g b : ℝ) : ℝ := (193 * r + 1192 * g + 9505 * b) / 10000

/-- Modelled from the spec: linear R from XYZ, row 1 of the exact inverse
matrix (adjugate over determinant). -/
def linR (x y z : ℝ) : ℝ := 10000 * (inv11 * x + inv12 * y + inv13 * z) / detA

/-- Row 2 of the exact inverse matrix: linear G from XYZ. -/
def linG (x y z : ℝ) : ℝ := 10000 * (inv21 * x + inv22 * y + inv23 * z) / detA

/-- Row 3 of the exact inverse matrix: linear B from XYZ. -/
def linB (x y z : ℝ) : ℝ := 10000 * (inv31 * x + inv32 * y + inv33 * z) / detA

/-- Modelled from the spec: the CIE forward function `f`, cube root above
`(6/29)^3` and the standard linear segment below. -/
def labF (t : ℝ) : ℝ :=
  if (6 / 29 : ℝ) ^ (3 : ℕ) < t then t ^ ((1 : ℝ) / 3)
  else t / (3 * (6 / 29 : ℝ) ^ (2 : ℕ)) + 4 / 29

/-- Modelled from the spec: the inverse CIE function, a cube above `6/29` and
the matching linear segment below. -/
def labFinv (u : ℝ) : ℝ :=
  if 6 / 29 < u then u ^ (3 : ℕ) else 3 * (6 / 29 : ℝ) ^ (2 : ℕ) * (u - 4 / 29)

/-- Modelled from the spec: one pixel of `rgbToLab` — gamma decode, primaries
matrix, D65-normalized CIE formulas. -/
def rgbToLabPx (p : RVec3) : RVec3 :=
  let lr := srgbToLinear p.1
  let lg := srgbToLinear p.2.1
  let lb := srgbToLinear p.2.2
  let fx := labF (xyzX lr lg lb / 0.95047)
  let fy := labF (xyzY lr lg lb)
  let fz := labF (xyzZ lr lg lb / 1.08883)
  (116 * fy - 16, 500 * (fx - fy), 200 * (fy - fz))

/-- Modelled from the spec: one pixel of `labToRgb` — the inverse CIE
formulas, D65 white point, exact inverse primaries matrix, gamma encode. -/
def labToRgbPx (q : RVec3) : RVec3 :=
  let fy := (q.1 + 16) / 116
  let fx := fy + q.2.1 / 500
  let fz := fy - q.2.2 / 200
  let x := 0.95047 * labFinv fx
  let y := labFinv fy
  let z := 1.08883 * labFinv fz
  (linearToSrgb (linR x y z), linearToSrgb (linG x y z), linearToSrgb (linB x y z))

/-- The image-level `rgbToLab` of the spec: the pixelwise map. -/
def rgbToLab : Mat2 RVec3 → Mat2 RVec3 := mapMat rgbToLabPx

/-- The image-level `labToRgb` of the spec. -/
def labToRgb : Mat2 RVec3 → Mat2 RVec3 := mapMat labToRgbPx

/-- The gamma-encode threshold bound: the decode threshold image
`0.04045/12.92` lies below the power branch at the decode boundary.  Settled
by comparing twelfth and fifth powers exactly. -/
lemma srgb_threshold_le :
    (0.04045 : ℝ) / 12.92 ≤ ((0.04045 + 0.055) / 1.055 : ℝ) ^ (2.4 : ℝ) := by
  have hx : ((0.04045 + 0.055) / 1.055 : ℝ) = 1909 / 21100 := by norm_num
  have hb : (0.04045 : ℝ) / 12.92 = 809 / 258400 := by norm_num
  rw [hx, hb]
  have hr : ((1909 / 21100 : ℝ) ^ (2.4 : ℝ)) ^ (5 : ℕ) = (1909 / 21100 : ℝ) ^ (12 : ℕ) := by
    rw [← Real.rpow_natCast ((1909 / 21100 : ℝ) ^ (2.4 : ℝ)) 5,
        ← Real.rpow_mul (by norm_num)]
    have h12 : (2.4 : ℝ) * ((5 : ℕ) : ℝ) = ((12 : ℕ) : ℝ) := by norm_num
    rw [h12, Real.rpow_natCast]
  have h5 : ((809 / 258400 : ℝ)) ^ (5 : ℕ) ≤ ((1909 / 21100 : ℝ) ^ (2.4 : ℝ)) ^ (5 : ℕ) := by
    rw [hr]
    norm_num
  exact le_of_pow_le_pow_left₀ (by norm_num) (Real.rpow_nonneg (by norm_num) _) h5

/-- Gamma encode inverts gamma decode exactly. -/
lemma linearToSrgb_srgbToLinear (c : ℝ) : linearToSrgb (srgbToLinear c) = c := by
  by_cases hc : c ≤ 0.04045
  · rw [srgbToLinear, if_pos hc, linearToSrgb,
      if_pos ((div_le_div_iff_of_pos_right (by norm_num)).mpr hc)]
    ring
  · push_neg at hc
    have hx : ((0.04045 + 0.055) / 1.055 : ℝ) < (c + 0.055) / 1.055 :=
      (div_lt_div_iff_of_pos_right (by norm_num)).mpr (by linarith)
    have key : (0.04045 : ℝ) / 12.92 < ((c + 0.055) / 1.055) ^ (2.4 : ℝ) := by
      have h1 : ((0.04045 + 0.055) / 1.055 : ℝ) ^ (2.4 : ℝ)
          < ((c + 0.055) / 1.055) ^ (2.4 : ℝ) :=
        Real.rpow_lt_rpow (by norm_num) hx (by norm_num)
      linarith [srgb_threshold_le]
    have hbase : (0 : ℝ) ≤ (c + 0.055) / 1.055 := by
      have : (0 : ℝ) < c + 0.055 := by linarith
      positivity
    rw [srgbToLinear, if_neg (not_le.mpr hc), linearToSrgb, if_neg (not_le.mpr key),
      ← Real.rpow_mul hbase]
    have h1 : (2.4 : ℝ) * (1 / 2.4) = 1 := by norm_num
    rw [h1, Real.rpow_one]
    ring

/-- The inverse CIE function inverts the forward one exactly, on all of ℝ. -/
lemma labFinv_labF (t : ℝ) : labFinv (labF t) = t := by
  by_cases ht : (6 / 29 : ℝ) ^ (3 : ℕ) < t
  · have ht0 : (0 : ℝ) ≤ t := le_of_lt (lt_of_le_of_lt (by positivity) ht)
    have hgt : (6 / 29 : ℝ) < t ^ ((1 : ℝ) / 3) := by
      have h1 : ((6 / 29 : ℝ) ^ (3 : ℕ)) ^ ((1 : ℝ) / 3) < t ^ ((1 : ℝ) / 3) :=
        Real.rpow_lt_rpow (by positivity) ht (by norm_num)
      have h2 : ((6 / 29 : ℝ) ^ (3 : ℕ)) ^ ((1 : ℝ) / 3) = 6 / 29 := by
        rw [← Real.rpow_natCast (6 / 29 : ℝ) 3, ← Real.rpow_mul (by norm_num)]
        norm_num
      rwa [h2] at h1
    rw [labF, if_pos ht, labFinv, if_pos hgt,
      ← Real.rpow_natCast (t ^ ((1 : ℝ) / 3)) 3, ← Real.rpow_mul ht0]
    norm_num
  · have hle : t / (3 * (6 / 29 : ℝ) ^ (2 : ℕ)) + 4 / 29 ≤ 6 / 29 := by
      have h1 : t ≤ (6 / 29 : ℝ) ^ (3 : ℕ) := not_lt.mp ht
      have h2 : (3 : ℝ) * (6 / 29 : ℝ) ^ (2 : ℕ) = 108 / 841 := by norm_num
      rw [h2]
      rw [div_add' _ _ _ (by norm_num), div_le_div_iff₀ (by norm_num) (by norm_num)]
      norm_num at h1 ⊢
      linarith
    rw [labF, if_neg ht, labFinv, if_neg (not_lt.mpr hle)]
    field_simp
    ring

/-- The exact inverse matrix really inverts the primaries matrix. -/
lemma lin_xyz_roundtrip (r g b : ℝ) :
    linR (xyzX r g b) (xyzY r g b) (xyzZ r g b) = r ∧
    linG (xyzX r g b) (xyzY r g b) (xyzZ r g b) = g ∧
    linB (xyzX r g b) (xyzY r g b) (xyzZ r g b) = b := by
  have hd : detA ≠ 0 := by norm_num [detA, inv11, inv21, inv31]
  refine ⟨?_, ?_, ?_⟩ <;>
    (simp only [linR, linG, linB, xyzX, xyzY, xyzZ, detA, inv11, inv12, inv13,
      inv21, inv22, inv23, inv31, inv32, inv33] at hd ⊢) <;>
    field_simp <;> ring

/-- The CIE stage of `labToRgb` recovers the three `f`-values exactly. -/
lemma fchain (x y z : ℝ) :
    labFinv ((116 * labF y - 16 + 16) / 116 + 500 * (labF x - labF y) / 500) = x ∧
    labFinv ((116 * labF y - 16 + 16) / 116) = y ∧
    labFinv ((116 * labF y - 16 + 16) / 116 - 200 * (labF y - labF z) / 200) = z := by
  have e1 : (116 * labF y - 16 + 16) / 116 + 500 * (labF x - labF y) / 500 = labF x := by
    ring
  have e3 : (116 * labF y - 16 + 16) / 116 - 200 * (labF y - labF z) / 200 = labF z := by
    ring
  have e2 : (116 * labF y - 16 + 16) / 116 = labF y := by ring
  rw [e1, e3, e2, labFinv_labF, labFinv_labF, labFinv_labF]
  exact ⟨rfl, rfl, rfl⟩

/-- The full pixel round-trip is exact: `labToRgb` after `rgbToLab` is the
identity on pixels. -/
lemma labToRgbPx_rgbToLabPx (p : RVec3) : labToRgbPx (rgbToLabPx p) = p := by
  obtain ⟨r, g, b⟩ := p
  simp only [rgbToLabPx, labToRgbPx]
  obtain ⟨h1, h2, h3⟩ := fchain
    (xyzX (srgbToLinear r) (srgbToLinear g) (srgbToLinear b) / 0.95047)
    (xyzY (srgbToLinear r) (srgbToLinear g) (srgbToLinear b))
    (xyzZ (srgbToLinear r) (srgbToLinear g) (srgbToLinear b) / 1.08883)
  rw [h1, h2, h3]
  have hX : 0.95047 * (xyzX (srgbToLinear r) (srgbToLinear g) (srgbToLinear b) / 0.95047)
      = xyzX (srgbToLinear r) (srgbToLinear g) (srgbToLinear b) := by ring
  have hZ : 1.08883 * (xyzZ (srgbToLinear r) (srgbToLinear g) (srgbToLinear b) / 1.08883)
      = xyzZ (srgbToLinear r) (srgbToLinear g) (srgbToLinear b) := by ring
  rw [hX, hZ]
  obtain ⟨hr, hg, hb⟩ := lin_xyz_roundtrip (srgbToLinear r) (srgbToLinear g) (srgbToLinear b)
  rw [hr, hg, hb, linearToSrgb_srgbToLinear, linearToSrgb_srgbToLinear,
    linearToSrgb_srgbToLinear]

/-- C1: for every valid NormalizedImage with all values in `[0,1]` and 3
channels, converting to LAB and back to RGB returns the image elementwise
within tolerance 1e-3 per channel (here the ideal-arithmetic round-trip is
exact, so the deviation is 0). -/
theorem lab_rgb_roundtrip (m : Mat2 RVec3)
    (hm : ∀ i j, 0 ≤ (m.px i j).1 ∧ (m.px i j).1 ≤ 1 ∧
      0 ≤ (m.px i j).2.1 ∧ (m.px i j).2.1 ≤ 1 ∧
      0 ≤ (m.px i j).2.2 ∧ (m.px i j).2.2 ≤ 1) :
    ∀ i j,
      |((labToRgb (rgbToLab m)).px i j).1 - (m.px i j).1| ≤ 1 / 1000 ∧
      |((labToRgb (rgbToLab m)).px i j).2.1 - (m.px i j).2.1| ≤ 1 / 1000 ∧
      |((labToRgb (rgbToLab m)).px i j).2.2 - (m.px i j).2.2| ≤ 1 / 1000 := by
  intro i j
  have hpt : ((labToRgb (rgbToLab m)).px i j) = m.px i j := by
    show labToRgbPx (rgbToLabPx (m.px i j)) = m.px i j
    exact labToRgbPx_rgbToLabPx (m.px i j)
  rw [hpt]
  norm_num

/-- A 1 × 1 all-black normalized image. -/
def demoNorm : Mat2 RVec3 := ⟨1, 1, fun _ _ => (0, 0, 0)⟩

/-- C1 witness: the round-trip tolerance at a concrete in-range image. -/
theorem lab_rgb_roundtrip_witness :
    |((labToRgb (rgbToLab demoNorm)).px 0 0).1 - (demoNorm.px 0 0).1| ≤ 1 / 1000 :=
  (lab_rgb_roundtrip demoNorm
    (fun _ _ => ⟨le_refl 0, zero_le_one, le_refl 0, zero_le_one, le_refl 0, zero_le_one⟩)
    0 0).1

end

end AIColorizer
